import Mathlib

/-!
Verification of the tiered WTI data pipeline (bronze → silver → gold → sink).

The development shallowly embeds the Python sources:
  pipelines/bronze/_bronze_writer.py   (write_bronze)
  notebooks/silver_clean.py            (_latest_file, _read_bronze, _align_weekly, main)
  notebooks/gold_features.py           (_price_features, _read_silver, _write_gold)
  notebooks/gold_to_postgres.py        (_read_gold)
  src/io/eia_client.py                 (series_to_frame)

Dataframes are modelled column-wise; pandas NaN/NaT is `Option.none`; file
content is an inductive tagged by the serialization format; the filesystem is
an association list from table names to directory listings; Python exceptions
are `Except String`.
-/

namespace Pipeline

/-- Serialization formats used by the pipeline: the preferred columnar format
(parquet) and the delimited-text fallback (csv). -/
inductive Ext
  | parquet
  | csv
deriving DecidableEq, Repr

/-- A snapshot filename `{stem}.{ext}`.  The stem is the fixed-width,
zero-padded UTC timestamp string `YYYYMMDDTHHMMSSZ` produced at write time;
on such strings lexicographic order coincides with the order of the instants
they denote, so the embedding represents a stem by that instant read as a
number (`20240105T153045Z` ↦ 20240105153045), and `sorted` on the filenames
of one extension becomes sorting these numbers.  The stem carries no dot, so
`Path.suffix` is determined by `ext` alone. -/
structure FileName where
  stem : Nat
  ext : Ext
deriving DecidableEq, Repr

/-- Python `Path.suffix`: the extension of the filename, dot included. -/
def FileName.suffix (f : FileName) : String :=
  match f.ext with
  | Ext.parquet => ".parquet"
  | Ext.csv => ".csv"

/-- Embedding of `_latest_file` (identical in silver_clean.py,
gold_features.py, gold_to_postgres.py):

    files = sorted(table_dir.glob("*.parquet")) or sorted(table_dir.glob("*.csv"))
    if not files: raise FileNotFoundError(msg)
    return files[-1]

`files` is the directory listing in arbitrary filesystem order; the glob
filters by extension; `sorted` sorts lexicographically (= numerically on the
timestamp stems, see `FileName`); `files[-1]` is the last element of the
sorted list.  `msg` is the per-tier FileNotFoundError message. -/
def latestFile (files : List FileName) (msg : String) : Except String FileName :=
  let ps := List.insertionSort (· ≤ ·)
    ((files.filter (fun f => f.ext = Ext.parquet)).map FileName.stem)
  let cs := List.insertionSort (· ≤ ·)
    ((files.filter (fun f => f.ext = Ext.csv)).map FileName.stem)
  match ps.getLast? with
  | some stem => Except.ok ⟨stem, Ext.parquet⟩
  | none =>
    match cs.getLast? with
    | some stem => Except.ok ⟨stem, Ext.csv⟩
    | none => Except.error msg

/-- Serialized file content: the rows of one table, tagged with the format
they were serialized in.  `α` is the row-payload type of the tier. -/
inductive Ser (α : Type)
  | parquet (rows : α)
  | csv (rows : α)
deriving DecidableEq, Repr

/-- One file of a table directory: its name and its serialized content. -/
structure Entry (α : Type) where
  name : FileName
  content : Ser α
deriving DecidableEq, Repr

/-- A tier root directory: association list from table name to the list of
snapshot files in that table directory. -/
abbrev Store (α : Type) := List (String × List (Entry α))

/-- Directory listing of one table: the files under `{root}/{table}`; a table
that was never written has an empty listing. -/
def Store.dir {α : Type} (s : Store α) (tbl : String) : List (Entry α) :=
  match s.lookup tbl with
  | some d => d
  | none => []

/-- Python `Path.mkdir(parents=True, exist_ok=True)`: ensure the table
directory exists; idempotent, touches no existing file. -/
def Store.mkdirDir {α : Type} (s : Store α) (tbl : String) : Store α :=
  match s.lookup tbl with
  | some _ => s
  | none => s ++ [(tbl, [])]

/-- Append one snapshot file to a table directory (file creation; the writers
never overwrite, names being fresh timestamps). -/
def Store.put {α : Type} (s : Store α) (tbl : String) (e : Entry α) : Store α :=
  match s with
  | [] => [(tbl, [e])]
  | (k, d) :: rest =>
    if k = tbl then (k, d ++ [e]) :: rest else (k, d) :: Store.put rest tbl e

/-- Embedding of `pd.read_parquet`: succeeds on parquet content, raises on
anything else (csv text is not a parquet file). -/
def readParquetFile {α : Type} (c : Ser α) : Except String α :=
  match c with
  | Ser.parquet rows => Except.ok rows
  | Ser.csv _ => Except.error "pyarrow error: not a parquet file"

/-- Embedding of `pd.read_csv`: succeeds on csv content, raises on parquet
binary content (the parser cannot tokenize it into the written rows). -/
def readCsvFile {α : Type} (c : Ser α) : Except String α :=
  match c with
  | Ser.csv rows => Except.ok rows
  | Ser.parquet _ => Except.error "pandas parser error: not a csv file"

/-- Look up the entry the resolver named; the resolver only returns names
from the listing, so the lookup succeeds on every reachable path. -/
def findEntry {α : Type} (d : List (Entry α)) (f : FileName) : Except String (Entry α) :=
  match d.find? (fun e => e.name = f) with
  | some e => Except.ok e
  | none => Except.error "file disappeared between listing and read"

/-- Embedding of `_read_bronze` (silver_clean.py):

    latest = _latest_file(bronze_root/table)
    if latest.suffix == ".parquet": return pd.read_parquet(latest)
    return pd.read_csv(latest)
-/
def read_bronze {α : Type} (store : Store α) (table : String) : Except String α := do
  let d := store.dir table
  let latest ← latestFile (d.map Entry.name) ("No bronze files found in data/bronze/" ++ table)
  let e ← findEntry d latest
  if latest.suffix = ".parquet" then readParquetFile e.content else readCsvFile e.content

/-- Embedding of `_read_silver` (gold_features.py); same shape as
`_read_bronze` with the silver root and message. -/
def read_silver {α : Type} (store : Store α) (table : String) : Except String α := do
  let d := store.dir table
  let latest ← latestFile (d.map Entry.name) ("No silver files found in data/silver/" ++ table)
  let e ← findEntry d latest
  if latest.suffix = ".parquet" then readParquetFile e.content else readCsvFile e.content

/-- Embedding of `_read_gold` (gold_to_postgres.py).  The source compares
`latest.suffix == '*.parquet'` — the literal string with the glob star —
although `Path.suffix` is `".parquet"`; the comparison is kept verbatim. -/
def read_gold {α : Type} (store : Store α) (table : String) : Except String α := do
  let d := store.dir table
  let latest ← latestFile (d.map Entry.name) ("No gold files found in data/gold/" ++ table)
  let e ← findEntry d latest
  if latest.suffix = "*.parquet" then readParquetFile e.content else readCsvFile e.content

/-- Embedding of `_write_silver` (silver_clean.py): mkdir the root and table
directory, then `df.to_parquet(out_dir/f"{timestamp}.parquet")`.  Returns the
updated silver store and the written file; the path string the source returns
is `data/silver/{table}/{stem}.parquet` for that file. -/
def write_silver {α : Type} (store : Store α) (rows : α) (table : String) (ts : Nat) :
    Store α × FileName :=
  ((store.mkdirDir table).put table ⟨⟨ts, Ext.parquet⟩, Ser.parquet rows⟩,
    ⟨ts, Ext.parquet⟩)

/-- Embedding of `_write_gold` (gold_features.py): identical to
`_write_silver` with the gold root `data/gold`. -/
def write_gold {α : Type} (store : Store α) (rows : α) (table : String) (ts : Nat) :
    Store α × FileName :=
  ((store.mkdirDir table).put table ⟨⟨ts, Ext.parquet⟩, Ser.parquet rows⟩,
    ⟨ts, Ext.parquet⟩)

/-! ## Dataframes and the bronze writer

`write_bronze` is the one place where Python object aliasing matters (the
source copies the caller's frame before adding the audit column), so
dataframes live in an explicit heap and the function takes a reference. -/

/-- A bronze-tier dataframe: header and stringly-typed rows, as produced by
the source adapter (`value` is kept in source-provided string form). -/
structure DataFrame where
  cols : List String
  rows : List (List String)
deriving DecidableEq, Repr

/-- Pandas column assignment with a scalar, `df[c] = v`, for a column not yet
present (bronze frames carry no audit column before the writer adds it): the
scalar is broadcast to every row. -/
def DataFrame.addColumn (df : DataFrame) (c v : String) : DataFrame :=
  ⟨df.cols ++ [c], df.rows.map (fun r => r ++ [v])⟩

/-- A heap of dataframe objects; references are list indices. -/
structure Heap where
  dfs : List DataFrame
deriving DecidableEq, Repr

/-- Dereference (out-of-range reads give the empty frame; theorems restrict
to valid references). -/
def Heap.get (h : Heap) (r : Nat) : DataFrame :=
  (h.dfs.get? r).getD ⟨[], []⟩

/-- In-place mutation of the object behind a reference. -/
def Heap.set (h : Heap) (r : Nat) (df : DataFrame) : Heap :=
  ⟨h.dfs.set r df⟩

/-- `df.copy()`: allocate a fresh object with the same contents; returns the
new heap and the fresh reference. -/
def Heap.alloc (h : Heap) (df : DataFrame) : Heap × Nat :=
  (⟨h.dfs ++ [df]⟩, h.dfs.length)

/-- Embedding of `write_bronze` (pipelines/bronze/_bronze_writer.py):

    timestamp = pd.Timestamp.utcnow().strftime("%Y%m%dT%H%M%SZ")
    df = df.copy()
    df['ingested_at'] = pd.Timestamp.utcnow()
    output_dir = Path(output_root) / table_name
    output_dir.mkdir(parents=True, exist_ok=True)
    try:
        df.to_parquet(parquet_path, index=False)
        return str(parquet_path), "parquet"
    except Exception:
        df_to_csv(csv_path, index=False)     # NameError: df_to_csv undefined
        return str(csv_path), "csv"

The wall clock is passed in as `ts` (see `FileName` for the numeric reading
of the timestamp string); `parquetOk` says whether the columnar serialization
succeeds (False models a missing optional codec, the condition the
except-branch is written for).  On success the source returns
`(str(parquet_path), "parquet")`, embedded as the written file plus the
format tag.  In the except branch the source calls the undefined name
`df_to_csv`, so the run raises NameError: no csv file is written and the
`return csv_path, "csv"` line is unreachable. -/
def write_bronze (h : Heap) (df : Nat) (table_name : String) (store : Store DataFrame)
    (ts : Nat) (parquetOk : Bool) :
    Heap × Store DataFrame × Except String (FileName × String) :=
  let copied := h.alloc (h.get df)
  let h1 := copied.1
  let dfLocal := copied.2
  let h2 := h1.set dfLocal ((h1.get dfLocal).addColumn "ingested_at" (toString ts))
  let store1 := store.mkdirDir table_name
  if parquetOk then
    (h2, store1.put table_name ⟨⟨ts, Ext.parquet⟩, Ser.parquet (h2.get dfLocal)⟩,
      Except.ok (⟨ts, Ext.parquet⟩, "parquet"))
  else
    (h2, store1, Except.error "NameError: name df_to_csv is not defined")

/-! ## The source adapter and the weekly alignment transform -/

/-- A raw business-date cell as delivered by the external API: either a
string `pd.to_datetime` can parse (modelled by the parsed day number) or one
it cannot.  Days count from an epoch Monday, so the weekday of day `d` is
`d % 7` and Friday is weekday 4. -/
inductive RawDate
  | valid (d : Nat)
  | invalid
deriving DecidableEq, Repr

/-- Whether `pd.to_datetime` can parse the cell. -/
def RawDate.isValid : RawDate → Bool
  | RawDate.valid _ => true
  | RawDate.invalid => false

/-- Embedding of `pd.to_datetime(df["date"])` with the default
`errors="raise"`, as called by `_align_weekly`: any unparseable cell raises
ValueError and fails the whole conversion. -/
def to_datetime : List (RawDate × ℚ) → Except String (List (Nat × ℚ))
  | [] => Except.ok []
  | (RawDate.valid d, v) :: rest => (to_datetime rest).map (fun t => (d, v) :: t)
  | (RawDate.invalid, _) :: _ => Except.error "ValueError: unable to parse date"

/-- Embedding of `pd.to_datetime(df["date"], errors="coerce")`, as called by
`series_to_frame` (src/io/eia_client.py): an unparseable cell becomes the
explicit missing marker NaT. -/
def to_datetime_coerce (d : RawDate) : Option Nat :=
  match d with
  | RawDate.valid n => some n
  | RawDate.invalid => none

/-- Embedding of `series_to_frame` (src/io/eia_client.py): build the frame
from the `(date, value)` pairs of the payload, coerce the date column with
`errors="coerce"`, stamp the series id, and order the columns
`[date, series_id, value]` (one output row per input pair). -/
def series_to_frame (data : List (RawDate × String)) (series_id : String) :
    List (Option Nat × String × String) :=
  data.map (fun p => (to_datetime_coerce p.1, series_id, p.2))

/-- `df.sort_values("date")`: sort rows ascending by the date column. -/
def sortByDate (l : List (Nat × ℚ)) : List (Nat × ℚ) :=
  List.insertionSort (fun a b => a.1 ≤ b.1) l

/-- The label of the W-FRI resample bin containing day `d`: the first Friday
on or after `d` (bins are right-closed and right-labelled on Fridays). -/
def nextFriday (d : Nat) : Nat :=
  d + (11 - d % 7) % 7

/-- The weekly grid of Fridays from `a` to `b` (both Fridays, `a ≤ b`):
`a, a+7, …, b`. -/
def fridayGrid (a b : Nat) : List Nat :=
  (List.range ((b - a) / 7 + 1)).map (fun i => a + 7 * i)

/-- Pad-reindexing at grid point `f`: the value of the last row (in sorted
order) whose date is at or before `f`; NaN when no such row exists. -/
def ffillAt (s : List (Nat × ℚ)) (f : Nat) : Option ℚ :=
  ((s.filter (fun r => r.1 ≤ f)).getLast?).map (fun r => r.2)

/-- Embedding of `_align_weekly` (silver_clean.py):

    df["date"] = pd.to_datetime(df["date"])
    df = df.sort_values("date")
    df = df.set_index("date")
    df = df.resample("W-FRI").ffill()
    df = df.reset_index()

`resample("W-FRI").ffill()` reindexes the frame onto the grid of week-ending
Fridays spanning the data (right-closed, right-labelled bins) with
`method="ffill"`, padding each grid point with the last observation at or
before it.  Pandas' reindex-with-fill rejects a duplicated source index, so
when the date column carries duplicate values the call raises
`ValueError: cannot reindex on an axis with duplicate labels` instead of
producing a frame; an empty frame resamples to an empty frame. -/
def align_weekly (rows : List (RawDate × ℚ)) : Except String (List (Nat × Option ℚ)) :=
  match to_datetime rows with
  | Except.error e => Except.error e
  | Except.ok parsed =>
    let s := sortByDate parsed
    match s with
    | [] => Except.ok []
    | r0 :: rest =>
      if ((r0 :: rest).map Prod.fst).Nodup then
        let rl := (r0 :: rest).getLast (List.cons_ne_nil r0 rest)
        Except.ok
          ((fridayGrid (nextFriday r0.1) (nextFriday rl.1)).map
            (fun f => (f, ffillAt (r0 :: rest) f)))
      else
        Except.error "ValueError: cannot reindex on an axis with duplicate labels"

/-! ## Gold feature transform

Silver/gold value cells are numeric with NaN as `Option.none`.  The claims'
inputs carry no interior NaN (silver output is forward-filled), so
`pct_change`'s default pad pre-fill is inert and is not modelled; a NaN
neighbour yields NaN.  pandas returns ±inf when the base of a percentage
change is zero — a value with no rational counterpart, modelled as the
no-value marker; the theorems restrict to nonzero prices. -/

/-- Entry `i` of `Series.pct_change()`: no prior week at row 0; otherwise the
fractional change of the value against the immediately preceding row. -/
def retAt (vs : List (Option ℚ)) : Nat → Option ℚ
  | 0 => none
  | j + 1 =>
    match vs.get? j, vs.get? (j + 1) with
    | some (some a), some (some b) => if a = 0 then none else some ((b - a) / a)
    | _, _ => none

/-- Embedding of `prices["value"].pct_change()`. -/
def pctChange (vs : List (Option ℚ)) : List (Option ℚ) :=
  (List.range vs.length).map (retAt vs)

/-- Sample variance (ddof = 1, the pandas `std` default) of four numbers:
the square of the rolling standard deviation pandas reports. -/
def sampleVar4 (a b c d : ℚ) : ℚ :=
  let m := (a + b + c + d) / 4
  ((a - m) ^ 2 + (b - m) ^ 2 + (c - m) ^ 2 + (d - m) ^ 2) / 3

/-- Entry `i` of `Series.rolling(4).std()`, squared: rows 0–2 have a window
shorter than 4; from row 3 on, the window is the 4 trailing entries and, with
the default `min_periods = 4`, any NaN among them yields NaN; otherwise the
sample statistic of the window.  The standard deviation itself is an
irrational square root, so the embedding carries its square (the sample
variance), which determines it. -/
def volAt (rs : List (Option ℚ)) : Nat → Option ℚ
  | 0 => none
  | 1 => none
  | 2 => none
  | j + 3 =>
    match rs.get? j, rs.get? (j + 1), rs.get? (j + 2), rs.get? (j + 3) with
    | some (some a), some (some b), some (some c), some (some d) =>
      some (sampleVar4 a b c d)
    | _, _, _, _ => none

/-- Embedding of `prices["return_1w"].rolling(4).std()`, squared entrywise. -/
def rolling4StdSq (rs : List (Option ℚ)) : List (Option ℚ) :=
  (List.range rs.length).map (volAt rs)

/-- The column set `_price_features` returns:
`prices[["date", "value", "return_1w", "vol_4w"]]`.  `vol_4w` entries are the
squares of the pandas column (see `volAt`). -/
structure PriceGold where
  date : List Nat
  value : List (Option ℚ)
  return_1w : List (Option ℚ)
  vol_4w : List (Option ℚ)
deriving DecidableEq, Repr

/-- `df.sort_values("date")` for silver price rows (date, value-or-NaN). -/
def sortByDateOpt (l : List (Nat × Option ℚ)) : List (Nat × Option ℚ) :=
  List.insertionSort (fun a b => a.1 ≤ b.1) l

/-- Embedding of `_price_features` (gold_features.py):

    prices = prices.sort_values("date")
    prices["return_1w"] = prices["value"].pct_change()
    prices["vol_4w"] = prices["return_1w"].rolling(4).std()
    return prices[["date", "value", "return_1w", "vol_4w"]]
-/
def price_features (prices : List (Nat × Option ℚ)) : PriceGold :=
  let s := sortByDateOpt prices
  let vals := s.map (fun r => r.2)
  let ret := pctChange vals
  { date := s.map (fun r => r.1)
    value := vals
    return_1w := ret
    vol_4w := rolling4StdSq ret }

/-! ## The silver orchestrator -/

/-- Embedding of `main` (silver_clean.py): read the latest snapshot of the
three bronze tables, align each, write the three silver tables, in exactly
this order; any raised exception aborts the run at that point (no try/except
anywhere in the function).  Returns the silver store as left by the run and
either the three output paths or the exception. -/
def silverMain (bronze : Store (List (RawDate × ℚ)))
    (silver : Store (List (Nat × Option ℚ))) (ts : Nat) :
    Store (List (Nat × Option ℚ)) × Except String (FileName × FileName × FileName) :=
  match read_bronze bronze "bronze_eia_prices" with
  | Except.error e => (silver, Except.error e)
  | Except.ok prices =>
    match read_bronze bronze "bronze_eia_supply" with
    | Except.error e => (silver, Except.error e)
    | Except.ok supply =>
      match read_bronze bronze "bronze_eia_storage" with
      | Except.error e => (silver, Except.error e)
      | Except.ok storage =>
        match align_weekly prices with
        | Except.error e => (silver, Except.error e)
        | Except.ok p =>
          match align_weekly supply with
          | Except.error e => (silver, Except.error e)
          | Except.ok sup =>
            match align_weekly storage with
            | Except.error e => (silver, Except.error e)
            | Except.ok sto =>
              let w1 := write_silver silver p "silver_eia_prices" ts
              let w2 := write_silver w1.1 sup "silver_eia_supply" ts
              let w3 := write_silver w2.1 sto "silver_eia_storage" ts
              (w3.1, Except.ok (w1.2, w2.2, w3.2))

/-! ## Instances for the sort relations used by the embeddings -/

instance {β : Type} : IsTotal (Nat × β) (fun a b => a.1 ≤ b.1) :=
  ⟨fun a b => Nat.le_total a.1 b.1⟩

instance {β : Type} : IsTrans (Nat × β) (fun a b => a.1 ≤ b.1) :=
  ⟨fun _ _ _ h1 h2 => le_trans h1 h2⟩

/-! ## Helper lemmas -/

/-- Sorting is determined by the multiset of elements: listings that are
permutations of each other sort identically. -/
theorem insertionSort_eq_of_perm {l l' : List Nat} (h : l.Perm l') :
    List.insertionSort (· ≤ ·) l = List.insertionSort (· ≤ ·) l' :=
  List.eq_of_perm_of_sorted
    ((List.perm_insertionSort _ l).trans (h.trans (List.perm_insertionSort _ l').symm))
    (List.sorted_insertionSort _ l) (List.sorted_insertionSort _ l')

/-- In a list sorted by a numeric key, the last element has the maximal key. -/
theorem sorted_key_le_getLast {α : Type} (key : α → Nat) :
    ∀ {l : List α}, List.Sorted (fun a b => key a ≤ key b) l → (hne : l ≠ []) →
      ∀ x ∈ l, key x ≤ key (l.getLast hne)
  | [], _, hne, _, _ => absurd rfl hne
  | [_], _, _, x, hx => by
    cases hx with
    | head => exact le_refl _
    | tail _ hmem => cases hmem
  | a :: b :: t, hs, _, x, hx => by
    have hlast : (a :: b :: t).getLast (List.cons_ne_nil a (b :: t))
        = (b :: t).getLast (List.cons_ne_nil b t) := by
      simp [List.getLast]
    rw [hlast]
    cases hx with
    | head =>
      exact le_trans (List.rel_of_sorted_cons hs b (List.mem_cons_self b t))
        (sorted_key_le_getLast key hs.of_cons (List.cons_ne_nil b t) b (List.mem_cons_self b t))
    | tail _ hmem =>
      exact sorted_key_le_getLast key hs.of_cons (List.cons_ne_nil b t) x hmem

/-- Specialization of `sorted_key_le_getLast` to plain numbers. -/
theorem sorted_le_getLast {l : List Nat} (hs : List.Sorted (· ≤ ·) l) (hne : l ≠ []) :
    ∀ x ∈ l, x ≤ l.getLast hne :=
  sorted_key_le_getLast (fun x => x) hs hne

/-- The resolver is insensitive to the order of the directory listing. -/
theorem latestFile_of_perm {files files' : List FileName} (msg : String)
    (h : files.Perm files') : latestFile files msg = latestFile files' msg := by
  simp only [latestFile]
  rw [insertionSort_eq_of_perm ((h.filter _).map FileName.stem),
    insertionSort_eq_of_perm ((h.filter _).map FileName.stem)]

/-- On a listing of uniform format, the resolver returns a member whose stem
dominates every file in the listing. -/
theorem latestFile_max_of_uniform {files : List FileName} {e : Ext} (msg : String)
    (hfmt : ∀ f ∈ files, f.ext = e) (hne : files ≠ []) :
    ∃ m, latestFile files msg = Except.ok m ∧ m ∈ files ∧ ∀ f ∈ files, f.stem ≤ m.stem := by
  classical
  have hmapne : files.map FileName.stem ≠ [] :=
    fun hcon => hne (List.map_eq_nil_iff.mp hcon)
  set sorted := List.insertionSort (· ≤ ·) (files.map FileName.stem) with hsorted
  have hsp : sorted.Perm (files.map FileName.stem) := by
    rw [hsorted]; exact List.perm_insertionSort _ _
  have hsortne : sorted ≠ [] := by
    intro hcon
    exact hmapne ((hcon ▸ hsp).symm.eq_nil)
  have hlast : sorted.getLast? = some (sorted.getLast hsortne) :=
    List.getLast?_eq_getLast_of_ne_nil hsortne
  have hsorted' : List.Sorted (· ≤ ·) sorted := by
    rw [hsorted]; exact List.sorted_insertionSort _ _
  have hmax : ∀ s ∈ files.map FileName.stem, s ≤ sorted.getLast hsortne := by
    intro s hs
    exact sorted_le_getLast hsorted' hsortne s (hsp.symm.mem_iff.mp hs)
  have hmem : sorted.getLast hsortne ∈ files.map FileName.stem :=
    hsp.mem_iff.mp (List.getLast_mem hsortne)
  obtain ⟨⟨fs, fe⟩, hfm, hfmstem⟩ := List.mem_map.mp hmem
  have hfe : fe = e := hfmt _ hfm
  have hmemfile : (⟨sorted.getLast hsortne, e⟩ : FileName) ∈ files := by
    have : (⟨fs, fe⟩ : FileName) = ⟨sorted.getLast hsortne, e⟩ := by
      simp only [FileName.mk.injEq]
      exact ⟨hfmstem, hfe⟩
    exact this ▸ hfm
  cases e with
  | parquet =>
    have hfp : files.filter (fun f => f.ext = Ext.parquet) = files :=
      List.filter_eq_self.mpr (fun f hf => by simp [hfmt f hf])
    refine ⟨⟨sorted.getLast hsortne, Ext.parquet⟩, ?_, hmemfile, ?_⟩
    · simp only [latestFile, hfp, ← hsorted, hlast]
    · intro f hf
      exact hmax f.stem (List.mem_map_of_mem FileName.stem hf)
  | csv =>
    have hfp : files.filter (fun f => f.ext = Ext.parquet) = [] :=
      List.filter_eq_nil_iff.mpr (fun f hf => by simp [hfmt f hf])
    have hfc : files.filter (fun f => f.ext = Ext.csv) = files :=
      List.filter_eq_self.mpr (fun f hf => by simp [hfmt f hf])
    refine ⟨⟨sorted.getLast hsortne, Ext.csv⟩, ?_, hmemfile, ?_⟩
    · simp only [latestFile, hfp, hfc, ← hsorted, hlast, List.map_nil, List.insertionSort,
        List.getLast?_nil]
    · intro f hf
      exact hmax f.stem (List.mem_map_of_mem FileName.stem hf)

/-- Resolving an empty directory listing raises the FileNotFoundError. -/
theorem latestFile_nil (msg : String) : latestFile [] msg = Except.error msg := rfl

/-- Reading a bronze table whose directory holds no snapshot propagates the
resolver's FileNotFoundError. -/
theorem read_bronze_empty_dir {α : Type} (st : Store α) (tbl : String)
    (hd : st.dir tbl = []) :
    read_bronze st tbl = Except.error ("No bronze files found in data/bronze/" ++ tbl) := by
  simp only [read_bronze, hd, List.map_nil, latestFile_nil]
  rfl

/-- A date column containing an unparseable cell makes the strict conversion
raise (pandas ValueError), wherever the cell sits. -/
theorem to_datetime_error_of_invalid :
    ∀ (rows : List (RawDate × ℚ)), (∃ r ∈ rows, r.1 = RawDate.invalid) →
      ∃ e, to_datetime rows = Except.error e
  | [], h => absurd h (by simp)
  | (RawDate.invalid, _) :: _, _ => ⟨"ValueError: unable to parse date", rfl⟩
  | (RawDate.valid _, _) :: rest, h => by
    obtain ⟨r, hr, hinv⟩ := h
    cases hr with
    | head => cases hinv
    | tail _ hmem =>
      obtain ⟨e, he⟩ := to_datetime_error_of_invalid rest ⟨r, hmem, hinv⟩
      exact ⟨e, by simp [to_datetime, he, Except.map]⟩

/-- pct_change preserves the row count. -/
theorem pctChange_length (vs : List (Option ℚ)) : (pctChange vs).length = vs.length := by
  simp [pctChange]

/-- Entrywise description of pct_change. -/
theorem pctChange_get? (vs : List (Option ℚ)) (i : Nat) (hi : i < vs.length) :
    (pctChange vs).get? i = some (retAt vs i) := by
  rw [pctChange, List.get?_map, List.get?_range hi]
  rfl

/-- The rolling statistic preserves the row count. -/
theorem rolling4StdSq_length (rs : List (Option ℚ)) : (rolling4StdSq rs).length = rs.length := by
  simp [rolling4StdSq]

/-- Entrywise description of the rolling statistic. -/
theorem rolling4StdSq_get? (rs : List (Option ℚ)) (i : Nat) (hi : i < rs.length) :
    (rolling4StdSq rs).get? i = some (volAt rs i) := by
  rw [rolling4StdSq, List.get?_map, List.get?_range hi]
  rfl

/-- Under defined, nonzero prices, each non-initial pct_change entry is the
fractional change against the preceding row. -/
theorem retAt_defined (rows : List (Nat × Option ℚ))
    (hval : ∀ r ∈ rows, r.2 ≠ none ∧ r.2 ≠ some 0) (j : Nat) (hj : j + 1 < rows.length) :
    ∃ d1 d2 a b, rows.get? j = some (d1, some a) ∧ rows.get? (j + 1) = some (d2, some b) ∧
      a ≠ 0 ∧ retAt (rows.map (fun r => r.2)) (j + 1) = some ((b - a) / a) := by
  obtain ⟨r1, hrow1⟩ : ∃ r, rows.get? j = some r := by
    cases h : rows.get? j with
    | none => exact absurd (List.get?_eq_none.mp h) (by omega)
    | some r => exact ⟨r, rfl⟩
  obtain ⟨r2, hrow2⟩ : ∃ r, rows.get? (j + 1) = some r := by
    cases h : rows.get? (j + 1) with
    | none => exact absurd (List.get?_eq_none.mp h) (by omega)
    | some r => exact ⟨r, rfl⟩
  obtain ⟨hne1, hnz1⟩ := hval r1 (List.get?_mem hrow1)
  obtain ⟨hne2, hnz2⟩ := hval r2 (List.get?_mem hrow2)
  obtain ⟨d1, v1⟩ := r1
  obtain ⟨d2, v2⟩ := r2
  cases v1 with
  | none => exact absurd rfl hne1
  | some a =>
    cases v2 with
    | none => exact absurd rfl hne2
    | some b =>
      have ha : a ≠ 0 := by simpa using hnz1
      refine ⟨d1, d2, a, b, hrow1, hrow2, ha, ?_⟩
      have hrow1' : rows[j]? = some (d1, some a) := by
        rw [← List.get?_eq_getElem?]; exact hrow1
      have hrow2' : rows[j + 1]? = some (d2, some b) := by
        rw [← List.get?_eq_getElem?]; exact hrow2
      simp [retAt, hrow1', hrow2', ha]

/-- The W-FRI bin label is a Friday (weekday 4 in the epoch convention). -/
theorem nextFriday_mod (d : Nat) : nextFriday d % 7 = 4 := by
  unfold nextFriday
  omega

/-- Bins are labelled at or after the observation they contain. -/
theorem le_nextFriday (d : Nat) : d ≤ nextFriday d := by
  unfold nextFriday
  omega

/-- Entrywise description of the weekly grid. -/
theorem fridayGrid_get? (a b i : Nat) (hi : i < (b - a) / 7 + 1) :
    (fridayGrid a b).get? i = some (a + 7 * i) := by
  rw [fridayGrid, List.get?_map, List.get?_range hi]
  rfl

/-- The weekly grid has one entry per week spanned. -/
theorem fridayGrid_length (a b : Nat) : (fridayGrid a b).length = (b - a) / 7 + 1 := by
  simp [fridayGrid]

/-- Members of the weekly grid are offsets of whole weeks from its start. -/
theorem mem_fridayGrid {a b f : Nat} (hf : f ∈ fridayGrid a b) :
    ∃ i, i ≤ (b - a) / 7 ∧ f = a + 7 * i := by
  obtain ⟨i, hi, rfl⟩ := List.mem_map.mp hf
  have hlt : i < (b - a) / 7 + 1 := List.mem_range.mp hi
  exact ⟨i, by omega, rfl⟩

/-- Pad-reindexing at a point at or after some observation returns the value
of the chronologically maximal observation at or before that point. -/
theorem ffillAt_spec (s : List (Nat × ℚ)) (hss : List.Sorted (fun x y => x.1 ≤ y.1) s)
    (f : Nat) (hex : ∃ r ∈ s, r.1 ≤ f) :
    ∃ r ∈ s, r.1 ≤ f ∧ ffillAt s f = some r.2 ∧ ∀ r2 ∈ s, r2.1 ≤ f → r2.1 ≤ r.1 := by
  classical
  have hfne : s.filter (fun r => r.1 ≤ f) ≠ [] := by
    obtain ⟨r, hr, hrf⟩ := hex
    intro hcon
    have hmem : r ∈ s.filter (fun r => r.1 ≤ f) :=
      List.mem_filter.mpr ⟨hr, by simpa using hrf⟩
    rw [hcon] at hmem
    cases hmem
  have hlast := List.getLast?_eq_getLast_of_ne_nil hfne
  have hrmem : (s.filter (fun r => r.1 ≤ f)).getLast hfne ∈ s.filter (fun r => r.1 ≤ f) :=
    List.getLast_mem hfne
  refine ⟨(s.filter (fun r => r.1 ≤ f)).getLast hfne, (List.mem_filter.mp hrmem).1,
    by simpa using (List.mem_filter.mp hrmem).2, ?_, ?_⟩
  · rw [ffillAt, hlast]
    rfl
  · intro r2 h2 h2f
    have h2fl : r2 ∈ s.filter (fun r => r.1 ≤ f) :=
      List.mem_filter.mpr ⟨h2, by simpa using h2f⟩
    exact sorted_key_le_getLast Prod.fst (hss.filter _) hfne r2 h2fl

/-! ## Claims -/

/-- C7: for every table location with zero snapshots in either format,
latest-version resolution raises the FileNotFoundError condition, which
propagates through the reader to the caller; it never returns an ok
result in place of the error. -/
theorem resolver_zero_snapshots (α : Type) (st : Store α) (tbl msg : String)
    (hd : st.dir tbl = []) :
    latestFile ((st.dir tbl).map Entry.name) msg = Except.error msg ∧
    read_bronze st tbl = Except.error ("No bronze files found in data/bronze/" ++ tbl) ∧
    ∀ v, read_bronze st tbl ≠ Except.ok v := by
  refine ⟨by rw [hd]; rfl, read_bronze_empty_dir st tbl hd, ?_⟩
  intro v hcon
  rw [read_bronze_empty_dir st tbl hd] at hcon
  cases hcon

/-- C7 witness: the empty bronze store has no snapshot for the prices table
and reading it is the propagated FileNotFoundError. -/
theorem resolver_zero_snapshots_witness :
    read_bronze ([] : Store Nat) "bronze_eia_prices"
      = Except.error "No bronze files found in data/bronze/bronze_eia_prices" :=
  (resolver_zero_snapshots Nat [] "bronze_eia_prices" "x" rfl).2.1

/-- C6 counterexample: a table holding two snapshots at distinct increasing
timestamps, the older columnar and the newer delimited-text; the resolver
returns the older parquet snapshot, not the most recent one. -/
theorem resolver_skips_newer_csv :
    latestFile [⟨20240102000000, Ext.csv⟩, ⟨20240101000000, Ext.parquet⟩] "m"
        = Except.ok ⟨20240101000000, Ext.parquet⟩ ∧
      (20240101000000 : Nat) < 20240102000000 :=
  ⟨rfl, by decide⟩

/-- C6 amended: latest-version resolution is insensitive to filesystem
listing order, and on a table location whose snapshots all share one format
it returns a snapshot of the listing whose identifier dominates every
snapshot (with distinct increasing timestamps, the Nth most recent); with
mixed formats the resolver prefers the maximal columnar snapshot even when a
delimited-text snapshot is newer. -/
theorem resolver_latest_spec (files files' : List FileName) (msg : String) (e : Ext)
    (hperm : files.Perm files') (hfmt : ∀ f ∈ files, f.ext = e) (hne : files ≠ []) :
    latestFile files msg = latestFile files' msg ∧
    ∃ m, latestFile files msg = Except.ok m ∧ m ∈ files ∧ ∀ f ∈ files, f.stem ≤ m.stem :=
  ⟨latestFile_of_perm msg hperm, latestFile_max_of_uniform msg hfmt hne⟩

/-- C6 witness: three parquet snapshots listed out of order resolve, in
either listing order, to the maximal identifier 20240103000000. -/
theorem resolver_latest_spec_witness :
    latestFile [⟨20240101000000, Ext.parquet⟩, ⟨20240103000000, Ext.parquet⟩,
        ⟨20240102000000, Ext.parquet⟩] "m"
      = latestFile [⟨20240102000000, Ext.parquet⟩, ⟨20240101000000, Ext.parquet⟩,
        ⟨20240103000000, Ext.parquet⟩] "m" ∧
    ∃ m, latestFile [⟨20240101000000, Ext.parquet⟩, ⟨20240103000000, Ext.parquet⟩,
        ⟨20240102000000, Ext.parquet⟩] "m" = Except.ok m ∧
      m ∈ [⟨20240101000000, Ext.parquet⟩, ⟨20240103000000, Ext.parquet⟩,
        ⟨20240102000000, Ext.parquet⟩] ∧
      ∀ f ∈ [(⟨20240101000000, Ext.parquet⟩ : FileName), ⟨20240103000000, Ext.parquet⟩,
        ⟨20240102000000, Ext.parquet⟩], f.stem ≤ m.stem :=
  resolver_latest_spec _ _ "m" Ext.parquet (by decide) (by decide) (by decide)

/-- C2: the claim says a failed columnar serialization is recovered locally
by writing the same rows as csv and returning the csv path with tag "csv".
The except-branch instead calls the undefined name `df_to_csv`, so the write
raises NameError: the error does escape to the caller and no csv snapshot is
added to the table directory (only the mkdir side effect remains). -/
theorem write_bronze_fallback_raises (h : Heap) (df : Nat) (tbl : String)
    (store : Store DataFrame) (ts : Nat) :
    (write_bronze h df tbl store ts false).2.2
        = Except.error "NameError: name df_to_csv is not defined" ∧
      (write_bronze h df tbl store ts false).2.1 = store.mkdirDir tbl :=
  ⟨rfl, rfl⟩

/-- C5: the round trip holds through the bronze/silver readers (first
conjunct: write then read returns the rows with only the audit column
added), but the gold-to-sink reader compares `Path.suffix` — always
".parquet" or ".csv" — against the literal "*.parquet", so a parquet gold
snapshot is handed to `pd.read_csv` and readback fails instead of returning
the written rows (second conjunct). -/
theorem gold_reader_breaks_roundtrip :
    read_bronze (write_bronze ⟨[⟨["date", "series_id", "value"],
          [["2024-01-05", "PET.RWTC.W", "75.12"]]⟩]⟩ 0 "bronze_eia_prices" []
          20240105153045 true).2.1 "bronze_eia_prices"
        = Except.ok ((⟨["date", "series_id", "value"],
            [["2024-01-05", "PET.RWTC.W", "75.12"]]⟩ : DataFrame).addColumn
            "ingested_at" (toString 20240105153045)) ∧
      read_gold (write_gold ([] : Store DataFrame)
          ⟨["date", "value", "return_1w", "vol_4w"], [["2024-01-05", "75.12", "", ""]]⟩
          "gold_eia_prices" 20240101000000).1 "gold_eia_prices"
        = Except.error "pandas parser error: not a csv file" :=
  ⟨rfl, rfl⟩

/-- C10: `write_bronze` copies the caller's frame before stamping the audit
column, so after the call the caller's object still has exactly the rows and
columns it had before, whichever serialization branch ran. -/
theorem write_bronze_preserves_caller (h : Heap) (r : Nat) (tbl : String)
    (store : Store DataFrame) (ts : Nat) (pOk : Bool) (hr : r < h.dfs.length) :
    ((write_bronze h r tbl store ts pOk).1).get r = h.get r := by
  have hfst : (write_bronze h r tbl store ts pOk).1
      = Heap.set ⟨h.dfs ++ [h.get r]⟩ h.dfs.length
          ((Heap.get ⟨h.dfs ++ [h.get r]⟩ h.dfs.length).addColumn "ingested_at"
            (toString ts)) := by
    cases pOk <;> rfl
  rw [hfst]
  show ((((h.dfs ++ [h.get r]).set h.dfs.length _).get? r).getD _) = _
  rw [List.get?_set_ne _ _ (Nat.ne_of_gt hr), List.get?_append hr]
  rfl

/-- C10 witness: a one-frame heap, written with either branch, still holds
the caller's frame unchanged at reference 0. -/
theorem write_bronze_preserves_caller_witness :
    (0 : Nat) < (⟨[⟨["date"], [["2024-01-05"]]⟩]⟩ : Heap).dfs.length ∧
    ((write_bronze ⟨[⟨["date"], [["2024-01-05"]]⟩]⟩ 0 "bronze_eia_prices" []
        20240105153045 true).1).get 0
      = (⟨[⟨["date"], [["2024-01-05"]]⟩]⟩ : Heap).get 0 :=
  ⟨by decide,
    write_bronze_preserves_caller ⟨[⟨["date"], [["2024-01-05"]]⟩]⟩ 0 "bronze_eia_prices"
      [] 20240105153045 true (by decide)⟩

/-- C1 counterexample: a bronze store where the supply and storage tables
each hold a healthy readable snapshot but the prices table has none.  The
silver orchestrator run returns the FileNotFoundError of the prices path and
the silver store exactly as it started: the sibling tables were neither
transformed nor written, contradicting the claim that each sibling path
still completes. -/
theorem silver_run_aborts_on_missing_prices :
    silverMain
        [("bronze_eia_supply", [⟨⟨20240105000000, Ext.csv⟩, Ser.csv [(RawDate.valid 4, 5)]⟩]),
          ("bronze_eia_storage", [⟨⟨20240105000000, Ext.csv⟩, Ser.csv [(RawDate.valid 4, 9)]⟩])]
        [] 20240106000000
      = ([], Except.error "No bronze files found in data/bronze/bronze_eia_prices") := rfl

/-- C1 amended: `main` in silver_clean.py wraps no per-table try/except and
performs all three reads before any write, so a failure in the prices
table's path aborts the whole run: the returned silver store is the input
store unchanged — no sibling table is transformed or written in that run. -/
theorem silver_main_not_isolated (bronze : Store (List (RawDate × ℚ)))
    (silver : Store (List (Nat × Option ℚ))) (ts : Nat)
    (hd : bronze.dir "bronze_eia_prices" = []) :
    silverMain bronze silver ts
      = (silver, Except.error "No bronze files found in data/bronze/bronze_eia_prices") := by
  have h1 := read_bronze_empty_dir bronze "bronze_eia_prices" hd
  simp only [silverMain, h1]
  rfl

/-- C1 witness: the amended statement at the concrete two-table store. -/
theorem silver_main_not_isolated_witness :
    silverMain
        [("bronze_eia_supply", [⟨⟨20240105000000, Ext.csv⟩, Ser.csv [(RawDate.valid 4, 7)]⟩])]
        [("silver_eia_supply", [])] 20240106000000
      = ([("silver_eia_supply", [])],
          Except.error "No bronze files found in data/bronze/bronze_eia_prices") :=
  silver_main_not_isolated _ _ _ rfl

/-- C3 counterexample: a one-row input whose business-date cell is
unparseable makes the alignment transform raise the pandas ValueError — it
does not coerce and continue. -/
theorem align_weekly_raises_on_unparseable :
    align_weekly [(RawDate.invalid, 5)] = Except.error "ValueError: unable to parse date" := rfl

/-- C3 amended: the alignment transform calls `pd.to_datetime` with the
default errors="raise", so any unparseable business date raises and fails
the whole transform; the coercion of invalid values to the explicit missing
marker (NaT) happens in the source adapter's `series_to_frame`, which passes
errors="coerce" and keeps one output row per input row. -/
theorem align_raises_adapter_coerces (rows : List (RawDate × ℚ))
    (data : List (RawDate × String)) (sid : String)
    (hbad : ∃ r ∈ rows, r.1 = RawDate.invalid) :
    (∃ e, align_weekly rows = Except.error e) ∧
    (series_to_frame data sid).length = data.length ∧
    ∀ i p, data.get? i = some p → p.1 = RawDate.invalid →
      (series_to_frame data sid).get? i = some (none, sid, p.2) := by
  obtain ⟨e, he⟩ := to_datetime_error_of_invalid rows hbad
  refine ⟨⟨e, by simp [align_weekly, he]⟩, List.length_map _ _, ?_⟩
  intro i p hi hp
  rw [series_to_frame, List.get?_map, hi]
  simp [hp, to_datetime_coerce]

/-- C3 witness: the amended statement at a one-row transform input and a
one-row adapter payload with an unparseable date. -/
theorem align_raises_adapter_coerces_witness :
    (∃ e, align_weekly [(RawDate.invalid, 5)] = Except.error e) ∧
    (series_to_frame [(RawDate.invalid, "75.12")] "PET.RWTC.W").length
      = [(RawDate.invalid, "75.12")].length ∧
    ∀ i p, [(RawDate.invalid, "75.12")].get? i = some p → p.1 = RawDate.invalid →
      (series_to_frame [(RawDate.invalid, "75.12")] "PET.RWTC.W").get? i
        = some (none, "PET.RWTC.W", p.2) :=
  align_raises_adapter_coerces _ _ _ ⟨(RawDate.invalid, 5), by simp, rfl⟩

/-- C9: for every weekly-aligned price input (dates already ascending,
prices present and nonzero), return_1w has one entry per row, carries the
no-value marker on the first row, and at every later row equals the
fractional change of value against the immediately preceding week. -/
theorem price_return_1w_spec (rows : List (Nat × Option ℚ))
    (hsort : List.Sorted (fun a b => a.1 ≤ b.1) rows)
    (hval : ∀ r ∈ rows, r.2 ≠ none ∧ r.2 ≠ some 0) :
    (price_features rows).return_1w.length = rows.length ∧
    (0 < rows.length → (price_features rows).return_1w.get? 0 = some none) ∧
    ∀ i, i + 1 < rows.length →
      ∃ d1 d2 a b, rows.get? i = some (d1, some a) ∧ rows.get? (i + 1) = some (d2, some b) ∧
        a ≠ 0 ∧ (price_features rows).return_1w.get? (i + 1) = some (some ((b - a) / a)) := by
  have hs : sortByDateOpt rows = rows := List.Sorted.insertionSort_eq hsort
  have hret : (price_features rows).return_1w = pctChange (rows.map (fun r => r.2)) := by
    simp [price_features, hs]
  have hlen : (rows.map (fun r => r.2)).length = rows.length := List.length_map _ _
  refine ⟨by rw [hret, pctChange_length, hlen], ?_, ?_⟩
  · intro h0
    rw [hret, pctChange_get? _ 0 (by omega)]
    rfl
  · intro i hi
    obtain ⟨d1, d2, a, b, hrow1, hrow2, ha, hpct⟩ := retAt_defined rows hval i hi
    refine ⟨d1, d2, a, b, hrow1, hrow2, ha, ?_⟩
    rw [hret, pctChange_get? _ (i + 1) (by omega), hpct]

/-- C9 witness: the spec example — prices 100, 110, 121 on consecutive
weeks; both defined returns are the fraction 1/10, and the first row is the
marker (instantiating the theorem at i = 0 and i = 1 and checking the
resulting fractions). -/
theorem price_return_1w_spec_witness :
    ((price_features [(0, some 100), (7, some 110), (14, some 121)]).return_1w.length = 3 ∧
      (price_features [(0, some 100), (7, some 110), (14, some 121)]).return_1w.get? 0
        = some none) ∧
    (price_features [(0, some 100), (7, some 110), (14, some 121)]).return_1w
      = [none, some (1 / 10), some (1 / 10)] := by
  have h := price_return_1w_spec [(0, some 100), (7, some 110), (14, some 121)]
    (by unfold List.Sorted; decide)
    (by intro r hr; fin_cases hr <;> constructor <;> simp)
  refine ⟨⟨h.1, h.2.1 (by decide)⟩, ?_⟩
  norm_num [price_features, sortByDateOpt, List.insertionSort, List.orderedInsert,
    pctChange, retAt, List.range_succ]

/-- C4 counterexample: five weekly prices with all four returns defined; the
claim says exactly the first 3 rows of vol_4w are undefined, but the entry
at index 3 (the fourth row) still carries the no-value marker, because the
4-entry window ending there contains the undefined first return and
`rolling(4).std()` requires `min_periods = 4` defined values. -/
theorem price_vol_4w_fourth_row_undefined :
    (price_features [(0, some 100), (7, some 110), (14, some 121), (21, some (1331 / 10)),
        (28, some (14641 / 100))]).vol_4w.get? 3 = some none ∧
    (price_features [(0, some 100), (7, some 110), (14, some 121), (21, some (1331 / 10)),
        (28, some (14641 / 100))]).vol_4w.length = 5 := by
  constructor
  · decide
  · decide

/-- C4 amended: vol_4w has one entry per row; an entry is the no-value
marker exactly on the first 4 rows (hence for a 3-row input every entry is
the marker); and from the fifth row on it is determined by the trailing
4-week window of return_1w as the sample statistic (pandas ddof = 1) of
those four returns — `sampleVar4` being the square of the reported standard
deviation. -/
theorem price_vol_4w_spec (rows : List (Nat × Option ℚ))
    (hsort : List.Sorted (fun a b => a.1 ≤ b.1) rows)
    (hval : ∀ r ∈ rows, r.2 ≠ none ∧ r.2 ≠ some 0) :
    (price_features rows).vol_4w.length = rows.length ∧
    (∀ i, i < rows.length → ((price_features rows).vol_4w.get? i = some none ↔ i < 4)) ∧
    ∀ i, i + 4 < rows.length →
      ∃ a b c d, (price_features rows).return_1w.get? (i + 1) = some (some a) ∧
        (price_features rows).return_1w.get? (i + 2) = some (some b) ∧
        (price_features rows).return_1w.get? (i + 3) = some (some c) ∧
        (price_features rows).return_1w.get? (i + 4) = some (some d) ∧
        (price_features rows).vol_4w.get? (i + 4) = some (some (sampleVar4 a b c d)) := by
  have hs : sortByDateOpt rows = rows := List.Sorted.insertionSort_eq hsort
  have hret : (price_features rows).return_1w = pctChange (rows.map (fun r => r.2)) := by
    simp [price_features, hs]
  have hvol : (price_features rows).vol_4w
      = rolling4StdSq (pctChange (rows.map (fun r => r.2))) := by
    simp [price_features, hs]
  have hlen : (rows.map (fun r => r.2)).length = rows.length := List.length_map _ _
  have hplen : (pctChange (rows.map (fun r => r.2))).length = rows.length := by
    rw [pctChange_length, hlen]
  have hpc : ∀ k, k < rows.length →
      (pctChange (rows.map (fun r => r.2))).get? k
        = some (retAt (rows.map (fun r => r.2)) k) :=
    fun k hk => pctChange_get? _ k (by omega)
  have hget : ∀ i, i < rows.length → (price_features rows).vol_4w.get? i
      = some (volAt (pctChange (rows.map (fun r => r.2))) i) := by
    intro i hi
    rw [hvol]
    exact rolling4StdSq_get? _ i (by omega)
  have hsome : ∀ m, 0 < m → m < rows.length →
      ∃ q, (pctChange (rows.map (fun r => r.2))).get? m = some (some q) := by
    intro m hm hlt
    obtain ⟨k, rfl⟩ : ∃ k, m = k + 1 := ⟨m - 1, by omega⟩
    obtain ⟨_, _, a, b, _, _, _, hr⟩ := retAt_defined rows hval k (by omega)
    exact ⟨(b - a) / a, by rw [hpc (k + 1) (by omega), hr]⟩
  refine ⟨by rw [hvol, rolling4StdSq_length, hplen], ?_, ?_⟩
  · intro i hi
    rw [hget i hi]
    match i, hi with
    | 0, _ => simp [volAt]
    | 1, _ => simp [volAt]
    | 2, _ => simp [volAt]
    | 3, hi =>
      have h0 : (pctChange (rows.map (fun r => r.2))).get? 0 = some none := by
        rw [hpc 0 (by omega)]
        rfl
      obtain ⟨q1, h1⟩ := hsome (0 + 1) (by omega) (by omega)
      obtain ⟨q2, h2⟩ := hsome (0 + 2) (by omega) (by omega)
      obtain ⟨q3, h3⟩ := hsome (0 + 3) (by omega) (by omega)
      have hv : volAt (pctChange (rows.map (fun r => r.2))) 3 = none := by
        show volAt (pctChange (rows.map (fun r => r.2))) (0 + 3) = none
        simp only [volAt]
        rw [h0, h1, h2, h3]
      simp [hv]
    | (j + 4), hi =>
      obtain ⟨q1, h1⟩ := hsome (j + 1) (by omega) (by omega)
      obtain ⟨q2, h2⟩ := hsome (j + 1 + 1) (by omega) (by omega)
      obtain ⟨q3, h3⟩ := hsome (j + 1 + 2) (by omega) (by omega)
      obtain ⟨q4, h4⟩ := hsome (j + 1 + 3) (by omega) (by omega)
      have hv : volAt (pctChange (rows.map (fun r => r.2))) (j + 4)
          = some (sampleVar4 q1 q2 q3 q4) := by
        show volAt (pctChange (rows.map (fun r => r.2))) ((j + 1) + 3)
          = some (sampleVar4 q1 q2 q3 q4)
        simp only [volAt]
        rw [h1, h2, h3, h4]
      simp [hv]
  · intro i hi
    obtain ⟨q1, h1⟩ := hsome (i + 1) (by omega) (by omega)
    obtain ⟨q2, h2⟩ := hsome (i + 1 + 1) (by omega) (by omega)
    obtain ⟨q3, h3⟩ := hsome (i + 1 + 2) (by omega) (by omega)
    obtain ⟨q4, h4⟩ := hsome (i + 1 + 3) (by omega) (by omega)
    have hv : volAt (pctChange (rows.map (fun r => r.2))) ((i + 1) + 3)
        = some (sampleVar4 q1 q2 q3 q4) := by
      simp only [volAt]
      rw [h1, h2, h3, h4]
    refine ⟨q1, q2, q3, q4, ?_, ?_, ?_, ?_, ?_⟩
    · rw [hret]; exact h1
    · rw [hret]; exact h2
    · rw [hret]; exact h3
    · rw [hret]; exact h4
    · rw [hget (i + 4) (by omega)]
      exact congrArg some hv

/-- C4 witness: the five-week example — entries 0–3 of vol_4w carry the
marker, entry 4 is the sample statistic of the four defined returns. -/
theorem price_vol_4w_spec_witness :
    (price_features [(0, some 100), (7, some 110), (14, some 121), (21, some (1331 / 10)),
        (28, some (14641 / 100))]).vol_4w.length = 5 ∧
    ((price_features [(0, some 100), (7, some 110), (14, some 121), (21, some (1331 / 10)),
        (28, some (14641 / 100))]).vol_4w.get? 3 = some none) ∧
    ∃ a b c d, (price_features [(0, some 100), (7, some 110), (14, some 121),
        (21, some (1331 / 10)), (28, some (14641 / 100))]).return_1w.get? 1
          = some (some a) ∧
      (price_features [(0, some 100), (7, some 110), (14, some 121), (21, some (1331 / 10)),
        (28, some (14641 / 100))]).return_1w.get? 2 = some (some b) ∧
      (price_features [(0, some 100), (7, some 110), (14, some 121), (21, some (1331 / 10)),
        (28, some (14641 / 100))]).return_1w.get? 3 = some (some c) ∧
      (price_features [(0, some 100), (7, some 110), (14, some 121), (21, some (1331 / 10)),
        (28, some (14641 / 100))]).return_1w.get? 4 = some (some d) ∧
      (price_features [(0, some 100), (7, some 110), (14, some 121), (21, some (1331 / 10)),
        (28, some (14641 / 100))]).vol_4w.get? 4 = some (some (sampleVar4 a b c d)) := by
  have h := price_vol_4w_spec
    [(0, some 100), (7, some 110), (14, some 121), (21, some (1331 / 10)),
      (28, some (14641 / 100))]
    (by unfold List.Sorted; decide)
    (by intro r hr; fin_cases hr <;> exact ⟨by simp, by norm_num⟩)
  exact ⟨h.1, (h.2.1 3 (by decide)).mpr (by decide), h.2.2 0 (by decide)⟩

/-- C8 counterexample: two rows sharing one (parseable) date — a non-empty
input with parseable dates on which the alignment transform produces no
weekly rows at all: the reindex onto the Friday grid rejects the duplicated
date index and the transform raises, so the claimed one-row-per-week output
does not exist for this input. -/
theorem align_weekly_raises_on_duplicate_dates :
    align_weekly [(RawDate.valid 7, 1), (RawDate.valid 7, 2)]
      = Except.error "ValueError: cannot reindex on an axis with duplicate labels" := rfl

/-- C8 amended: for every non-empty input whose dates all parse and are
pairwise distinct, the alignment transform succeeds and its output is
exactly one row per week-ending Friday spanning the first to the last
observed date: the date column is the weekly Friday grid from the bin of the
earliest observation to the bin of the latest (so the row count is the
number of weeks spanned, not the number of input rows), every output date is
a Friday, consecutive output dates differ by exactly 7 days, and each row's
value is the value of the chronologically latest observation at or before
that Friday — forward carry, never interpolation or backward fill.  (On
duplicate dates the transform raises — see the counterexample — rather than
absorbing them.) -/
theorem align_weekly_grid_spec (rows : List (RawDate × ℚ)) (parsed : List (Nat × ℚ))
    (hp : to_datetime rows = Except.ok parsed) (hne : parsed ≠ [])
    (hnd : (parsed.map Prod.fst).Nodup) :
    ∃ out dmin dmax,
      align_weekly rows = Except.ok out ∧
      dmin ∈ parsed.map Prod.fst ∧ dmax ∈ parsed.map Prod.fst ∧
      (∀ d ∈ parsed.map Prod.fst, dmin ≤ d ∧ d ≤ dmax) ∧
      out.map Prod.fst = fridayGrid (nextFriday dmin) (nextFriday dmax) ∧
      out.length = (nextFriday dmax - nextFriday dmin) / 7 + 1 ∧
      (∀ p ∈ out, p.1 % 7 = 4) ∧
      (∀ i, i + 1 < out.length →
        (out.map Prod.fst).get? (i + 1) = ((out.map Prod.fst).get? i).map (fun x => x + 7)) ∧
      (∀ p ∈ out, ∃ r ∈ parsed, r.1 ≤ p.1 ∧ p.2 = some r.2 ∧
        ∀ r2 ∈ parsed, r2.1 ≤ p.1 → r2.1 ≤ r.1) := by
  classical
  have hperm : (sortByDate parsed).Perm parsed := List.perm_insertionSort _ _
  obtain ⟨r0, rest, hs⟩ : ∃ r0 rest, sortByDate parsed = r0 :: rest := by
    cases hsrt : sortByDate parsed with
    | nil =>
      exfalso
      exact hne ((hsrt ▸ hperm).symm.eq_nil)
    | cons a t => exact ⟨a, t, rfl⟩
  have hsp : (r0 :: rest).Perm parsed := by
    rw [← hs]
    exact List.perm_insertionSort _ _
  have hss : List.Sorted (fun x y => x.1 ≤ y.1) (r0 :: rest) := by
    rw [← hs]
    exact List.sorted_insertionSort _ _
  have hnd' : ((r0 :: rest).map Prod.fst).Nodup := ((hsp.map Prod.fst).nodup_iff).mpr hnd
  have hout : align_weekly rows
      = Except.ok ((fridayGrid (nextFriday r0.1)
          (nextFriday ((r0 :: rest).getLast (List.cons_ne_nil r0 rest)).1)).map
        (fun f => (f, ffillAt (r0 :: rest) f))) := by
    simp only [align_weekly, hp, hs]
    rw [if_pos hnd']
  refine ⟨(fridayGrid (nextFriday r0.1)
      (nextFriday ((r0 :: rest).getLast (List.cons_ne_nil r0 rest)).1)).map
        (fun f => (f, ffillAt (r0 :: rest) f)),
    r0.1, ((r0 :: rest).getLast (List.cons_ne_nil r0 rest)).1,
    hout, ?_, ?_, ?_, ?_, ?_, ?_, ?_, ?_⟩
  · exact List.mem_map_of_mem Prod.fst (hsp.mem_iff.mp (List.mem_cons_self r0 rest))
  · exact List.mem_map_of_mem Prod.fst
      (hsp.mem_iff.mp (List.getLast_mem (List.cons_ne_nil r0 rest)))
  · intro d hd
    obtain ⟨r, hr, rfl⟩ := List.mem_map.mp hd
    have hrs : r ∈ r0 :: rest := hsp.mem_iff.mpr hr
    constructor
    · cases hrs with
      | head => exact le_refl _
      | tail _ hm => exact List.rel_of_sorted_cons hss r hm
    · exact sorted_key_le_getLast Prod.fst hss (List.cons_ne_nil r0 rest) r hrs
  · rw [List.map_map]
    have hcomp : (Prod.fst ∘ fun f => (f, ffillAt (r0 :: rest) f)) = id := by
      funext x
      rfl
    rw [hcomp, List.map_id]
  · rw [List.length_map, fridayGrid_length]
  · intro p hpm
    obtain ⟨f, hf, rfl⟩ := List.mem_map.mp hpm
    obtain ⟨i, _, rfl⟩ := mem_fridayGrid hf
    have h4 := nextFriday_mod r0.1
    omega
  · intro i hi
    have heq : ((fridayGrid (nextFriday r0.1)
        (nextFriday ((r0 :: rest).getLast (List.cons_ne_nil r0 rest)).1)).map
          (fun f => (f, ffillAt (r0 :: rest) f))).map Prod.fst
        = fridayGrid (nextFriday r0.1)
            (nextFriday ((r0 :: rest).getLast (List.cons_ne_nil r0 rest)).1) := by
      rw [List.map_map]
      have hcomp : (Prod.fst ∘ fun f => (f, ffillAt (r0 :: rest) f)) = id := by
        funext x
        rfl
      rw [hcomp, List.map_id]
    rw [List.length_map, fridayGrid_length] at hi
    rw [heq, fridayGrid_get? _ _ _ (by omega), fridayGrid_get? _ _ _ (by omega)]
    simp only [Option.map_some']
    congr 1
  · intro p hpm
    obtain ⟨f, hf, rfl⟩ := List.mem_map.mp hpm
    have hex : ∃ r ∈ r0 :: rest, r.1 ≤ f := by
      obtain ⟨i, _, rfl⟩ := mem_fridayGrid hf
      exact ⟨r0, List.mem_cons_self r0 rest, by
        have := le_nextFriday r0.1
        omega⟩
    obtain ⟨rm, hrs, hrf, hfill, hmax⟩ := ffillAt_spec (r0 :: rest) hss f hex
    exact ⟨rm, hsp.mem_iff.mp hrs, hrf, hfill, fun r2 h2 h2f =>
      hmax r2 (hsp.mem_iff.mpr h2) h2f⟩

/-- C8 witness: observations on five distinct days 0, 7, 14, 42, 63 — ten
weeks spanned with a four-week gap — instantiating the theorem (the output
is the ten Fridays 4, 11, …, 67 with the gap forward-carried). -/
theorem align_weekly_grid_spec_witness :
    ∃ out dmin dmax,
      align_weekly [(RawDate.valid 0, 1), (RawDate.valid 7, 2), (RawDate.valid 14, 3),
          (RawDate.valid 42, 4), (RawDate.valid 63, 5)] = Except.ok out ∧
      dmin ∈ [(0, (1 : ℚ)), (7, 2), (14, 3), (42, 4), (63, 5)].map Prod.fst ∧
      dmax ∈ [(0, (1 : ℚ)), (7, 2), (14, 3), (42, 4), (63, 5)].map Prod.fst ∧
      (∀ d ∈ [(0, (1 : ℚ)), (7, 2), (14, 3), (42, 4), (63, 5)].map Prod.fst,
        dmin ≤ d ∧ d ≤ dmax) ∧
      out.map Prod.fst = fridayGrid (nextFriday dmin) (nextFriday dmax) ∧
      out.length = (nextFriday dmax - nextFriday dmin) / 7 + 1 ∧
      (∀ p ∈ out, p.1 % 7 = 4) ∧
      (∀ i, i + 1 < out.length →
        (out.map Prod.fst).get? (i + 1) = ((out.map Prod.fst).get? i).map (fun x => x + 7)) ∧
      (∀ p ∈ out, ∃ r ∈ [(0, (1 : ℚ)), (7, 2), (14, 3), (42, 4), (63, 5)], r.1 ≤ p.1 ∧
        p.2 = some r.2 ∧
        ∀ r2 ∈ [(0, (1 : ℚ)), (7, 2), (14, 3), (42, 4), (63, 5)], r2.1 ≤ p.1 → r2.1 ≤ r.1) :=
  align_weekly_grid_spec _ _ rfl (by decide) (by decide)

end Pipeline
